import Mathlib

/-!
Verification of the prototype-pollution demo repository
(`src/server-vulnerable.js`: vulnerable server + `fixes/server-fixed.js`
secure server + `demos/concept-demo.js`).

Shallow embedding.  JSON-like runtime values are modelled as trees
(`JVal`).  The single shared ancestor object (`Object.prototype`) is
modelled as an explicit heap of its own enumerable data properties,
carried in a state record (`MState`) together with the `Object.freeze`
flag and the observable logs (console warnings of blocked keys, and the
keys iterated by merge loops).  A merge target is either an ordinary
tree node or a live reference to the shared ancestor (`TgtRef`): the
latter is how `target["__proto__"]` resolves in the vulnerable merge.

Modelling notes (JS semantics choices, fixed once for the whole file):
* mappings `vobj hasProto props`: `hasProto = true` means the object's
  prototype is `Object.prototype` (object literals, `JSON.parse`
  output); `false` means a null-prototype object (`Object.create null`).
* a read of `"__proto__"` on a `hasProto` object without an own
  `"__proto__"` property yields a live reference to the shared ancestor
  (the inherited accessor); an own data property (as produced by
  `JSON.parse`) shadows it.
* arrays carry their elements and any named (non-index) properties;
  `Array.prototype` itself is not modelled (only the chain's data
  properties on `Object.prototype`), nor is the array `length` property.
* built-in non-enumerable function-valued properties of
  `Object.prototype` (`constructor`, `hasOwnProperty`, ...) are not in
  the heap; the heap holds exactly the pollution-reachable enumerable
  data properties.
* reads of inherited data properties return structural copies (object
  identity / aliasing is not modelled); no claim below depends on
  aliasing of inherited values.
* the repository's modules run in non-strict mode: assignment to a
  frozen object, or to a property of a primitive, is a silent no-op.
* recursion fuel: the JS merges can diverge on adversarial heaps
  (`for...in` can feed the loop from the mutated ancestor), so the
  loops take a fuel argument, consumed once per processed entry and per
  descent; all theorems either hold for every fuel or use an explicitly
  sufficient concrete fuel.
-/

inductive JVal : Type where
  | vnull : JVal
  | vundefined : JVal
  | vbool : Bool → JVal
  | vnum : Int → JVal
  | vstr : String → JVal
  | varr : List JVal → List (String × JVal) → JVal
  | vobj : Bool → List (String × JVal) → JVal
deriving Repr

/-- Own enumerable properties of an object, in insertion order. -/
abbrev Props := List (String × JVal)

/-- First-match association lookup (JS own-property read). -/
def getOwn : Props → String → Option JVal
  | [], _ => none
  | (k, v) :: rest, key => if k = key then some v else getOwn rest key

/-- JS own-property write: update in place if the key exists (property
order is preserved), otherwise append. -/
def setOwn : Props → String → JVal → Props
  | [], key, v => [(key, v)]
  | (k, w) :: rest, key, v =>
    if k = key then (k, v) :: rest else (k, w) :: setOwn rest key v

/-- JS truthiness (`!x` in the merge guards). `NaN` is not modelled. -/
def truthy : JVal → Bool
  | .vnull => false
  | .vundefined => false
  | .vbool b => b
  | .vnum n => n != 0
  | .vstr s => s != ""
  | .varr _ _ => true
  | .vobj _ _ => true

/-- `typeof v` as a string (`typeof null` is `"object"` in JS). -/
def typeofStr : JVal → String
  | .vnull => "object"
  | .vundefined => "undefined"
  | .vbool _ => "boolean"
  | .vnum _ => "number"
  | .vstr _ => "string"
  | .varr _ _ => "object"
  | .vobj _ _ => "object"

/-- A canonical array index, as JS property keys treat them
(`"3"` is an index, `"03"` and `"-1"` are plain keys). -/
def canonicalIndex (k : String) : Option Nat :=
  match k.data with
  | [] => none
  | cs =>
    if cs.all Char.isDigit then
      let i := cs.foldl (fun n c => n * 10 + (c.toNat - 48)) 0
      if toString i = k then some i else none
    else none

/-- Write an array element, padding with `undefined` beyond the end
(JS assignment past the current length). -/
def setElem (xs : List JVal) (i : Nat) (v : JVal) : List JVal :=
  if i < xs.length then xs.set i v
  else xs ++ List.replicate (i - xs.length) JVal.vundefined ++ [v]

/-- Own-property read on a value (objects: own props; arrays: canonical
indices hit elements, other keys the named props; primitives: none). -/
def readOwnJVal (v : JVal) (k : String) : Option JVal :=
  match v with
  | .vobj _ ps => getOwn ps k
  | .varr elems ps =>
    match canonicalIndex k with
    | some i =>
      match elems[i]? with
      | some e => some e
      | none => getOwn ps k
    | none => getOwn ps k
  | _ => none

/-- `src/server-vulnerable.js` line 336 (fixed server):
`const DANGEROUS_KEYS = new Set(['__proto__', 'constructor', 'prototype'])`. -/
def DANGEROUS_KEYS : List String := ["__proto__", "constructor", "prototype"]

/-- `DANGEROUS_KEYS.has(key)` — an exact (case-sensitive) membership
test, as JS `Set.has` is. -/
def dangerousKey (k : String) : Bool := DANGEROUS_KEYS.contains k

/-- Process-wide state: the `Object.freeze(Object.prototype)` flag, the
own enumerable data properties of `Object.prototype` (empty = clean),
the `console.warn` log of blocked keys, and the log of keys iterated by
merge loops (the successive values of the loop variable `key`). -/
structure MState where
  frozen : Bool
  proto : Props
  warnings : List String
  visited : List String
deriving Repr

/-- A merge target: a live reference to the shared ancestor
(`Object.prototype`), or an ordinary tree value. -/
inductive TgtRef : Type where
  | ambient : TgtRef
  | node : JVal → TgtRef
deriving Repr

/-- Result of a JS property GET used in a merge: either the live shared
ancestor (the inherited `__proto__` accessor) or a plain value. -/
inductive ReadVal : Type where
  | ambientRef : ReadVal
  | val : JVal → ReadVal
deriving Repr

/-- Inherited read through the prototype chain: a data property of the
(possibly polluted) shared ancestor, else `undefined`. -/
def inheritedData (st : MState) (k : String) : JVal :=
  match getOwn st.proto k with
  | some v => v
  | none => .vundefined

/-- Full JS GET `target[k]`: own property first, then the chain.
On a `hasProto` object without an own `"__proto__"`, reading
`"__proto__"` hits the inherited accessor and yields the live shared
ancestor. On the ancestor itself, `"__proto__"` reads as `null`. -/
def readTgt (st : MState) (tgt : TgtRef) (k : String) : ReadVal :=
  match tgt with
  | .ambient =>
    match getOwn st.proto k with
    | some v => .val v
    | none => if k = "__proto__" then .val .vnull else .val .vundefined
  | .node v =>
    match readOwnJVal v k with
    | some w => .val w
    | none =>
      match v with
      | .vobj true _ =>
        if k = "__proto__" then .ambientRef else .val (inheritedData st k)
      | .vobj false _ => .val .vundefined
      | .varr _ _ => .val (inheritedData st k)
      | _ => .val .vundefined

/-- Assignment to a data property of the shared ancestor: a silent
no-op once frozen (non-strict mode); assigning `"__proto__"` there hits
the accessor (it would re-point the ancestor's own prototype, never add
a data property), so it never changes the heap either. -/
def ambientSet (st : MState) (k : String) (v : JVal) : MState :=
  if st.frozen || k = "__proto__" then st
  else { st with proto := setOwn st.proto k v }

/-- Full JS SET `target[k] = v`. On a `hasProto` object without an own
`"__proto__"`, assigning `"__proto__"` invokes the inherited setter:
`null` detaches the prototype, another object would re-point it (the
ancestor itself is unaffected; re-pointing to a non-ambient object is
kept as a no-op here), a primitive is ignored. Property writes on
primitives are silent no-ops (non-strict mode). -/
def writeTgt (st : MState) (tgt : TgtRef) (k : String) (v : JVal) :
    MState × TgtRef :=
  match tgt with
  | .ambient => (ambientSet st k v, .ambient)
  | .node w =>
    match w with
    | .vobj true ps =>
      if k = "__proto__" then
        match getOwn ps "__proto__" with
        | some _ => (st, .node (.vobj true (setOwn ps k v)))
        | none =>
          match v with
          | .vnull => (st, .node (.vobj false ps))
          | _ => (st, .node (.vobj true ps))
      else (st, .node (.vobj true (setOwn ps k v)))
    | .vobj false ps => (st, .node (.vobj false (setOwn ps k v)))
    | .varr elems ps =>
      match canonicalIndex k with
      | some i => (st, .node (.varr (setElem elems i v) ps))
      | none => (st, .node (.varr elems (setOwn ps k v)))
    | _ => (st, tgt)

/-- Log one iteration of a merge loop variable. -/
def logVisit (st : MState) (k : String) : MState :=
  { st with visited := st.visited ++ [k] }

/-- The fixed server's `console.warn` text for a blocked key. -/
def warnMsg (k : String) : String :=
  "[SECURITY] Blocked dangerous key: \"" ++ k ++ "\""

/-- Record the fixed server's warning for a blocked dangerous key. -/
def logWarn (st : MState) (k : String) : MState :=
  { st with warnings := st.warnings ++ [warnMsg k] }

/-- `Object.keys(source)` with the values read at those keys: own
enumerable entries only. Strings enumerate their character indices;
`Object.keys` of other primitives is empty. -/
def srcOwnEntries : JVal → Props
  | .vobj _ ps => ps
  | .varr elems ps =>
    (elems.enum.map (fun p => (toString p.1, p.2))) ++ ps
  | .vstr s =>
    s.toList.enum.map (fun p => (toString p.1, JVal.vstr (String.mk [p.2])))
  | _ => []

/-- Keys enumerated by `for...in`: own enumerable keys followed by
enumerable keys reachable through the prototype chain (the polluted
data properties of the shared ancestor), own keys not repeated. -/
def forInKeys (st : MState) (v : JVal) : List String :=
  let own := (srcOwnEntries v).map Prod.fst
  let chains : Bool :=
    match v with
    | .vobj true _ => true
    | .varr _ _ => true
    | .vstr _ => true
    | .vnum _ => true
    | .vbool _ => true
    | _ => false
  if chains then
    own ++ (st.proto.map Prod.fst).filter (fun hk => !(own.contains hk))
  else own

/-- A `ReadVal` used as a recursion source: the live ancestor is
materialized as its current own properties (a null-prototype view,
since `Object.prototype`'s own prototype is `null`). -/
def asSrcVal (st : MState) (r : ReadVal) : JVal :=
  match r with
  | .val w => w
  | .ambientRef => .vobj false st.proto

/-- `for...in` over a source, with each key's GET result (snapshot at
loop entry). -/
def forInEntries (st : MState) (v : JVal) : List (String × ReadVal) :=
  (forInKeys st v).map (fun k => (k, readTgt st (.node v) k))

/-- The vulnerable merge's guard
`typeof source[key] === 'object' && source[key] !== null`. -/
def isObjNonNullR : ReadVal → Bool
  | .ambientRef => true
  | .val (.vobj _ _) => true
  | .val (.varr _ _) => true
  | .val _ => false

/-- The fixed merge's keep-test on the existing `target[key]`:
`!(!target[key] || typeof target[key] !== 'object')`. The live
ancestor and arrays are truthy objects; `null` is falsy. -/
def keepChild : ReadVal → Bool
  | .ambientRef => true
  | .val (.vobj _ _) => true
  | .val (.varr _ _) => true
  | .val _ => false

/-- Truthiness of a GET result (`!target[key]` in the vulnerable
merge): the live ancestor is an object, hence truthy. -/
def truthyR : ReadVal → Bool
  | .ambientRef => true
  | .val w => truthy w

/-- The kept `target[key]` as a recursion target. -/
def childTarget : ReadVal → TgtRef
  | .ambientRef => .ambient
  | .val w => .node w

/-- Store the merged child back under its key. When the child was the
live ancestor, the mutation already happened in the state and
`target[key]` was never reassigned. -/
def writeBackChild (st : MState) (tgt : TgtRef) (k : String) :
    TgtRef → MState × TgtRef
  | .ambient => (st, tgt)
  | .node w => writeTgt st tgt k w

/-- `src/server-vulnerable.js` lines 338–362 (fixed server):

```js
function safeMerge(target, source) {
  for (const key of Object.keys(source)) {
    if (DANGEROUS_KEYS.has(key)) {
      console.warn(`[SECURITY] Blocked dangerous key: "${key}"`);
      continue;
    }
    if (typeof source[key] === 'object' && source[key] !== null
        && !Array.isArray(source[key])) {
      if (!target[key] || typeof target[key] !== 'object') {
        target[key] = Object.create(null);
      }
      safeMerge(target[key], source[key]);
    } else {
      target[key] = source[key];
    }
  }
  return target;
}
```

The loop runs over the own entries handed to it (`Object.keys` plus the
own-property reads `source[key]`); fuel is consumed per processed entry
and per descent. -/
def safeMergeLoop : Nat → MState → TgtRef → Props → MState × TgtRef
  | _, st, tgt, [] => (st, tgt)
  | 0, st, tgt, _ :: _ => (st, tgt)
  | fuel + 1, st, tgt, (k, v) :: rest =>
    let st1 := logVisit st k
    if dangerousKey k then
      safeMergeLoop fuel (logWarn st1 k) tgt rest
    else
      match v with
      | .vobj _ sprops =>
        let rt := readTgt st1 tgt k
        let subT := if keepChild rt then childTarget rt
                    else TgtRef.node (.vobj false [])
        let r1 := safeMergeLoop fuel st1 subT sprops
        let r2 := writeBackChild r1.1 tgt k r1.2
        safeMergeLoop fuel r2.1 r2.2 rest
      | _ =>
        let r := writeTgt st1 tgt k v
        safeMergeLoop fuel r.1 r.2 rest

/-- `safeMerge(target, source)`: the loop over `Object.keys(source)`. -/
def safeMerge (fuel : Nat) (st : MState) (tgt : TgtRef) (src : JVal) :
    MState × TgtRef :=
  safeMergeLoop fuel st tgt (srcOwnEntries src)

/-- `src/server-vulnerable.js` lines 25–36 (vulnerable server):

```js
function unsafeMerge(target, source) {
  for (const key in source) {
    if (typeof source[key] === 'object' && source[key] !== null) {
      if (!target[key]) target[key] = {};
      unsafeMerge(target[key], source[key]);
    } else {
      target[key] = source[key];
    }
  }
  return target;
}
```

`for...in` entries (own plus inherited) are snapshotted at loop entry.
When `key = "__proto__"` and the target has no own `"__proto__"`, the
read `target[key]` is the live shared ancestor, which becomes the
recursion target: that is the pollution path. -/
def unsafeMergeLoop : Nat → MState → TgtRef → List (String × ReadVal) →
    MState × TgtRef
  | _, st, tgt, [] => (st, tgt)
  | 0, st, tgt, _ :: _ => (st, tgt)
  | fuel + 1, st, tgt, (k, rv) :: rest =>
    let st1 := logVisit st k
    if isObjNonNullR rv then
      let rt := readTgt st1 tgt k
      let step :=
        if truthyR rt then (st1, tgt, childTarget rt)
        else
          let w := writeTgt st1 tgt k (.vobj true [])
          (w.1, w.2, TgtRef.node (.vobj true []))
      let subEntries := forInEntries step.1 (asSrcVal step.1 rv)
      let r1 := unsafeMergeLoop fuel step.1 step.2.2 subEntries
      let r2 := writeBackChild r1.1 step.2.1 k r1.2
      unsafeMergeLoop fuel r2.1 r2.2 rest
    else
      let r := writeTgt st1 tgt k (asSrcVal st1 rv)
      unsafeMergeLoop fuel r.1 r.2 rest

/-- `unsafeMerge(target, source)`: the loop over `for...in`. -/
def unsafeMerge (fuel : Nat) (st : MState) (tgt : TgtRef) (src : JVal) :
    MState × TgtRef :=
  unsafeMergeLoop fuel st tgt (forInEntries st src)

/-- `src/server-vulnerable.js` lines 328–329 (fixed server):
`Object.freeze(Object.prototype)`, run once at startup.  This is the
spec's Ambient Namespace Guard `install()`. -/
def installAmbientGuard (st : MState) : MState := { st with frozen := true }

/-- Non-strict-mode assignment to a data property of the shared
ancestor, together with whether it raised an error.  In the
repository's (sloppy-mode) modules, assignment to a frozen object
returns normally with no effect — `demos/concept-demo.js` line 180:
"This will throw in strict mode, silently fail otherwise". -/
def protoAssign (st : MState) (k : String) (v : JVal) : MState × Bool :=
  (ambientSet st k v, false)

/-- The spec's Ambient Namespace Guard `verify_ambient_clean`: every
given key still resolves to its default (absent) on the shared
ancestor.  `fixes/verify-fixes.js` Test 5
(`Object.prototype.isAdmin === undefined`) is one instance. -/
def verifyAmbientClean (keys : List String) (ambient : Props) : Bool :=
  keys.all (fun k => (getOwn ambient k).isNone)

/-- Process state of the vulnerable server at startup: nothing frozen,
clean ancestor, empty logs. -/
def vulnStartState : MState :=
  { frozen := false, proto := [], warnings := [], visited := [] }

/-- Process state of the fixed server after its startup freeze. -/
def fixedStartState : MState := installAmbientGuard vulnStartState

/-- `src/server-vulnerable.js` lines 383–392 (fixed server):

```js
function validateSettings(settings) {
  const errors = [];
  if (settings.timeout !== undefined && typeof settings.timeout !== 'number') {
    errors.push(`"timeout" must be a number, got: ${typeof settings.timeout}`);
  }
  if (settings.retries !== undefined && typeof settings.retries !== 'number') {
    errors.push(`"retries" must be a number, got: ${typeof settings.retries}`);
  }
  return errors;
}
```
-/
def getField (st : MState) (v : JVal) (k : String) : JVal :=
  asSrcVal st (readTgt st (.node v) k)

def numFieldError (st : MState) (body : JVal) (k : String) : List String :=
  let v := getField st body k
  match v with
  | .vundefined => []
  | _ =>
    if typeofStr v = "number" then []
    else ["\"" ++ k ++ "\" must be a number, got: " ++ typeofStr v]

def validateSettings (st : MState) (body : JVal) : List String :=
  numFieldError st body "timeout" ++ numFieldError st body "retries"

/-- `src/server-vulnerable.js` lines 368–381 (fixed server):
allow-list plus deny-list check on the top-level keys of the update
payload (`updates || {}`). -/
def ALLOWED_KEYS : List String := ["displayName", "email", "bio", "avatar"]

def validateProfileUpdates (updates : JVal) : List String :=
  ((srcOwnEntries updates).map Prod.fst).filterMap (fun k =>
    if dangerousKey k then some ("Forbidden key: \"" ++ k ++ "\"")
    else if !(ALLOWED_KEYS.contains k) then
      some ("Unknown key: \"" ++ k ++ "\" — only allowed: displayName, email, bio, avatar")
    else none)

/-- Responses of `POST /api/update-profile` (fixed server,
lines 412–430). -/
inductive ProfileResp : Type where
  | notFound : ProfileResp
  | badRequest : List String → ProfileResp
  | updated : ProfileResp
deriving Repr

/-- The tree held by a merge result (merge targets in the routes are
always tree nodes). -/
def nodeVal : TgtRef → JVal
  | .node w => w
  | .ambient => .vundefined

/-- `POST /api/update-profile` (fixed server): 404 on unknown user,
DEFENSE 5 validation before any merge, then `safeMerge` into the
stored user object. -/
def updateProfileRoute (fuel : Nat) (st : MState) (users : Props)
    (username : String) (updates : JVal) :
    MState × Props × ProfileResp :=
  if username = "" then (st, users, .notFound)
  else
    match getOwn users username with
    | none => (st, users, .notFound)
    | some u =>
      let errs := validateProfileUpdates updates
      if errs.isEmpty then
        let r := safeMerge fuel st (.node u) updates
        (r.1, setOwn users username (nodeVal r.2), .updated)
      else (st, users, .badRequest errs)

/-- Responses of `POST /api/settings` (fixed server, lines 454–471). -/
inductive SettingsResp : Type where
  | badRequest : List String → SettingsResp
  | applied : Int → SettingsResp
  | appliedOther : JVal → SettingsResp
deriving Repr

/-- `POST /api/settings` (fixed server): DEFENSE 5 type validation
before the merge; on success, a fresh null-prototype defaults object is
merged with the body and `timeout * 1000` is returned. -/
def settingsRoute (fuel : Nat) (st : MState) (body : JVal) :
    MState × SettingsResp :=
  let errs := validateSettings st body
  if errs.isEmpty then
    let defaults : JVal :=
      .vobj false [("timeout", .vnum 30), ("retries", .vnum 3),
                   ("debug", .vbool false)]
    let r := safeMerge fuel st (.node defaults) body
    match getField r.1 (nodeVal r.2) "timeout" with
    | .vnum n => (r.1, .applied (n * 1000))
    | v => (r.1, .appliedOther v)
  else (st, .badRequest errs)

/-- `GET /api/admin` (vulnerable server, lines 90–107): a fresh empty
object literal, access granted when `user.isAdmin` is truthy or
`user.role === 'admin'` — both reads go through the (possibly
polluted) prototype chain. -/
def adminCheckGranted (st : MState) : Bool :=
  let user : JVal := .vobj true []
  truthy (getField st user "isAdmin") ||
    (match getField st user "role" with
     | .vstr s => s = "admin"
     | _ => false)

/-- The keys a `safeMerge` run iterates, computed from the source's own
entries alone (no state, no target): each level contributes its own
keys in order, descending only into non-dangerous mapping values, with
the same fuel accounting as `safeMergeLoop`. -/
def ownKeyTrace : Nat → Props → List String
  | _, [] => []
  | 0, _ :: _ => []
  | fuel + 1, (k, v) :: rest =>
    if dangerousKey k then k :: ownKeyTrace fuel rest
    else
      match v with
      | .vobj _ sprops => k :: (ownKeyTrace fuel sprops ++ ownKeyTrace fuel rest)
      | _ => k :: ownKeyTrace fuel rest

/-- The warnings a `safeMerge` run appends, computed from the source's
own entries alone: one per dangerous own key, at any depth. -/
def warnTrace : Nat → Props → List String
  | _, [] => []
  | 0, _ :: _ => []
  | fuel + 1, (k, v) :: rest =>
    if dangerousKey k then warnMsg k :: warnTrace fuel rest
    else
      match v with
      | .vobj _ sprops => warnTrace fuel sprops ++ warnTrace fuel rest
      | _ => warnTrace fuel rest

/-- Whether a value is a mapping (a non-array, non-null object). -/
def isMapping : JVal → Bool
  | .vobj _ _ => true
  | _ => false

/-- A source nested `n` levels deep: `chainSrc 0 = 1`,
`chainSrc (n+1) = {"a": chainSrc n}` (ordinary parsed objects). -/
def chainSrc : Nat → JVal
  | 0 => .vnum 1
  | n + 1 => .vobj true [("a", chainSrc n)]

/-- What the fixed merge materializes for `chainSrc`: the same chain,
every level freshly created as a null-prototype (ancestor-free)
container. -/
def mergedChain : Nat → JVal
  | 0 => .vnum 1
  | n + 1 => .vobj false [("a", mergedChain n)]

/-! ### Helper lemmas about the fixed merge -/

theorem dangerousKey_proto : dangerousKey "__proto__" = true := by decide

theorem getOwn_setOwn_ne (ps : Props) (k k' : String) (v : JVal)
    (h : k' ≠ k) : getOwn (setOwn ps k v) k' = getOwn ps k' := by
  have hks : ¬ k = k' := fun e => h e.symm
  induction ps with
  | nil => simp [setOwn, getOwn, hks]
  | cons p rest ih =>
    obtain ⟨pk, pv⟩ := p
    by_cases hpk : pk = k
    · subst hpk
      simp [setOwn, getOwn, hks]
    · simp [setOwn, getOwn, hpk, ih]

/-- A non-dangerous key can never read as the live ancestor on a tree
target: the only such read is the inherited `"__proto__"` accessor. -/
theorem readTgt_node_val (st : MState) (w : JVal) (k : String)
    (h : dangerousKey k = false) :
    ∃ u, readTgt st (.node w) k = .val u := by
  have hk : k ≠ "__proto__" := by
    intro e; rw [e, dangerousKey_proto] at h; cases h
  cases hw : readOwnJVal w k with
  | some u => exact ⟨u, by simp [readTgt, hw]⟩
  | none =>
    cases w with
    | vobj hp ps =>
      cases hp
      · exact ⟨.vundefined, by simp [readTgt, hw]⟩
      · exact ⟨inheritedData st k, by simp [readTgt, hw, hk]⟩
    | varr elems ps => exact ⟨inheritedData st k, by simp [readTgt, hw]⟩
    | vnull => exact ⟨.vundefined, by simp [readTgt, hw]⟩
    | vundefined => exact ⟨.vundefined, by simp [readTgt, hw]⟩
    | vbool b => exact ⟨.vundefined, by simp [readTgt, hw]⟩
    | vnum n => exact ⟨.vundefined, by simp [readTgt, hw]⟩
    | vstr s => exact ⟨.vundefined, by simp [readTgt, hw]⟩

/-- A SET on a tree target never touches the process state. -/
theorem writeTgt_node (st : MState) (w : JVal) (k : String) (v : JVal) :
    ∃ w', writeTgt st (.node w) k v = (st, .node w') := by
  cases w with
  | vobj hp ps =>
    cases hp
    · exact ⟨.vobj false (setOwn ps k v), rfl⟩
    · by_cases hk : k = "__proto__"
      · subst hk
        cases hg : getOwn ps "__proto__" with
        | some u =>
          exact ⟨.vobj true (setOwn ps "__proto__" v), by simp [writeTgt, hg]⟩
        | none =>
          cases v with
          | vnull => exact ⟨.vobj false ps, by simp [writeTgt, hg]⟩
          | vundefined => exact ⟨.vobj true ps, by simp [writeTgt, hg]⟩
          | vbool b => exact ⟨.vobj true ps, by simp [writeTgt, hg]⟩
          | vnum n => exact ⟨.vobj true ps, by simp [writeTgt, hg]⟩
          | vstr s => exact ⟨.vobj true ps, by simp [writeTgt, hg]⟩
          | varr e2 p2 => exact ⟨.vobj true ps, by simp [writeTgt, hg]⟩
          | vobj h2 p2 => exact ⟨.vobj true ps, by simp [writeTgt, hg]⟩
      · exact ⟨.vobj true (setOwn ps k v), by simp [writeTgt, hk]⟩
  | varr elems ps =>
    cases hc : canonicalIndex k with
    | some i => exact ⟨.varr (setElem elems i v) ps, by simp [writeTgt, hc]⟩
    | none => exact ⟨.varr elems (setOwn ps k v), by simp [writeTgt, hc]⟩
  | vnull => exact ⟨.vnull, rfl⟩
  | vundefined => exact ⟨.vundefined, rfl⟩
  | vbool b => exact ⟨.vbool b, rfl⟩
  | vnum n => exact ⟨.vnum n, rfl⟩
  | vstr s => exact ⟨.vstr s, rfl⟩

/-- A SET on a `vobj` tree target under a non-`"__proto__"` key is a
plain own-property update. -/
theorem writeTgt_vobj (st : MState) (hp : Bool) (ps : Props) (k : String)
    (v : JVal) (hk : k ≠ "__proto__") :
    writeTgt st (.node (.vobj hp ps)) k v = (st, .node (.vobj hp (setOwn ps k v))) := by
  cases hp <;> simp [writeTgt, hk]

/-- Core invariant of the fixed merge on tree targets: the process
state is changed only by appending the iterated keys (`ownKeyTrace`,
computed from the source's own entries alone) and the warnings for the
blocked dangerous keys (`warnTrace`); the ancestor heap and the freeze
flag are untouched, and the target stays a tree. -/
theorem safeMergeLoop_node_spec (fuel : Nat) :
    ∀ (sprops : Props) (st : MState) (w : JVal),
    ∃ w', safeMergeLoop fuel st (.node w) sprops =
      ({ st with visited := st.visited ++ ownKeyTrace fuel sprops,
                 warnings := st.warnings ++ warnTrace fuel sprops }, .node w') := by
  induction fuel with
  | zero =>
    intro sprops st w
    cases sprops <;> exact ⟨w, by simp [safeMergeLoop, ownKeyTrace, warnTrace]⟩
  | succ fuel ih =>
    intro sprops st w
    match sprops with
    | [] => exact ⟨w, by simp [safeMergeLoop, ownKeyTrace, warnTrace]⟩
    | (k, v) :: rest =>
      by_cases hd : dangerousKey k
      · obtain ⟨w', hw⟩ := ih rest (logWarn (logVisit st k) k) w
        refine ⟨w', ?_⟩
        simp only [safeMergeLoop, hd, if_true, hw]
        simp [logWarn, logVisit, ownKeyTrace, warnTrace, hd, List.append_assoc]
      · have hdf : dangerousKey k = false := by simpa using hd
        cases v with
        | vobj shp sprops2 =>
          obtain ⟨u, hu⟩ := readTgt_node_val (logVisit st k) w k hdf
          obtain ⟨w1, hw1⟩ : ∃ w1,
              (if keepChild (readTgt (logVisit st k) (.node w) k) then
                childTarget (readTgt (logVisit st k) (.node w) k)
               else TgtRef.node (.vobj false [])) = .node w1 := by
            rw [hu]
            by_cases hkc : keepChild (ReadVal.val u)
            · exact ⟨u, by simp [hkc, childTarget]⟩
            · exact ⟨.vobj false [], by simp [hkc]⟩
          obtain ⟨w2, hw2⟩ := ih sprops2 (logVisit st k) w1
          obtain ⟨w3, hw3⟩ := writeTgt_node
            ({ logVisit st k with
                visited := (logVisit st k).visited ++ ownKeyTrace fuel sprops2,
                warnings := (logVisit st k).warnings ++ warnTrace fuel sprops2 })
            w k w2
          obtain ⟨w4, hw4⟩ := ih rest
            ({ logVisit st k with
                visited := (logVisit st k).visited ++ ownKeyTrace fuel sprops2,
                warnings := (logVisit st k).warnings ++ warnTrace fuel sprops2 })
            w3
          refine ⟨w4, ?_⟩
          simp only [safeMergeLoop, hdf, if_false, Bool.false_eq_true, hw1,
            hw2, writeBackChild, hw3, hw4]
          simp [logVisit, ownKeyTrace, warnTrace, hdf, List.append_assoc]
        | vnull =>
          obtain ⟨w3, hw3⟩ := writeTgt_node (logVisit st k) w k .vnull
          obtain ⟨w4, hw4⟩ := ih rest (logVisit st k) w3
          refine ⟨w4, ?_⟩
          simp only [safeMergeLoop, hdf, if_false, Bool.false_eq_true, hw3, hw4]
          simp [logVisit, ownKeyTrace, warnTrace, hdf, List.append_assoc]
        | vundefined =>
          obtain ⟨w3, hw3⟩ := writeTgt_node (logVisit st k) w k .vundefined
          obtain ⟨w4, hw4⟩ := ih rest (logVisit st k) w3
          refine ⟨w4, ?_⟩
          simp only [safeMergeLoop, hdf, if_false, Bool.false_eq_true, hw3, hw4]
          simp [logVisit, ownKeyTrace, warnTrace, hdf, List.append_assoc]
        | vbool b =>
          obtain ⟨w3, hw3⟩ := writeTgt_node (logVisit st k) w k (.vbool b)
          obtain ⟨w4, hw4⟩ := ih rest (logVisit st k) w3
          refine ⟨w4, ?_⟩
          simp only [safeMergeLoop, hdf, if_false, Bool.false_eq_true, hw3, hw4]
          simp [logVisit, ownKeyTrace, warnTrace, hdf, List.append_assoc]
        | vnum n =>
          obtain ⟨w3, hw3⟩ := writeTgt_node (logVisit st k) w k (.vnum n)
          obtain ⟨w4, hw4⟩ := ih rest (logVisit st k) w3
          refine ⟨w4, ?_⟩
          simp only [safeMergeLoop, hdf, if_false, Bool.false_eq_true, hw3, hw4]
          simp [logVisit, ownKeyTrace, warnTrace, hdf, List.append_assoc]
        | vstr s =>
          obtain ⟨w3, hw3⟩ := writeTgt_node (logVisit st k) w k (.vstr s)
          obtain ⟨w4, hw4⟩ := ih rest (logVisit st k) w3
          refine ⟨w4, ?_⟩
          simp only [safeMergeLoop, hdf, if_false, Bool.false_eq_true, hw3, hw4]
          simp [logVisit, ownKeyTrace, warnTrace, hdf, List.append_assoc]
        | varr elems ps2 =>
          obtain ⟨w3, hw3⟩ := writeTgt_node (logVisit st k) w k (.varr elems ps2)
          obtain ⟨w4, hw4⟩ := ih rest (logVisit st k) w3
          refine ⟨w4, ?_⟩
          simp only [safeMergeLoop, hdf, if_false, Bool.false_eq_true, hw3, hw4]
          simp [logVisit, ownKeyTrace, warnTrace, hdf, List.append_assoc]

theorem dangerousKey_ne_proto {k : String} (h : dangerousKey k = false) :
    k ≠ "__proto__" := by
  intro e; rw [e, dangerousKey_proto] at h; cases h

theorem not_mem_map_cons_head {k k' : String} {v : JVal} {rest : Props}
    (hm : k' ∉ ((k, v) :: rest).map Prod.fst) :
    k' ≠ k ∧ k' ∉ rest.map Prod.fst := by
  rw [List.map_cons] at hm
  exact ⟨List.ne_of_not_mem_cons hm, List.not_mem_of_not_mem_cons hm⟩

/-- The fixed merge writes only under the source's own keys: a mapping
target keeps its prototype flag, and every own property whose key is
not an own key of the source is left exactly as it was. -/
theorem safeMergeLoop_vobj_own (fuel : Nat) :
    ∀ (sprops : Props) (st : MState) (hp : Bool) (tps : Props),
    ∃ tps',
      (safeMergeLoop fuel st (.node (.vobj hp tps)) sprops).2 =
        .node (.vobj hp tps') ∧
      ∀ k', k' ∉ sprops.map Prod.fst → getOwn tps' k' = getOwn tps k' := by
  induction fuel with
  | zero =>
    intro sprops st hp tps
    cases sprops <;> exact ⟨tps, by simp [safeMergeLoop], fun _ _ => rfl⟩
  | succ fuel ih =>
    intro sprops st hp tps
    match sprops with
    | [] => exact ⟨tps, by simp [safeMergeLoop], fun _ _ => rfl⟩
    | (k, v) :: rest =>
      by_cases hd : dangerousKey k
      · obtain ⟨tps', h1, h2⟩ := ih rest (logWarn (logVisit st k) k) hp tps
        refine ⟨tps', ?_, ?_⟩
        · simp only [safeMergeLoop, hd, if_true]
          exact h1
        · intro k' hm
          exact h2 k' (not_mem_map_cons_head hm).2
      · have hdf : dangerousKey k = false := by simpa using hd
        have hk : k ≠ "__proto__" := dangerousKey_ne_proto hdf
        cases v with
        | vobj shp sprops2 =>
          obtain ⟨u, hu⟩ :=
            readTgt_node_val (logVisit st k) (.vobj hp tps) k hdf
          obtain ⟨w1, hw1⟩ : ∃ w1,
              (if keepChild (readTgt (logVisit st k) (.node (.vobj hp tps)) k)
               then childTarget (readTgt (logVisit st k) (.node (.vobj hp tps)) k)
               else TgtRef.node (.vobj false [])) = .node w1 := by
            rw [hu]
            by_cases hkc : keepChild (ReadVal.val u)
            · exact ⟨u, by simp [hkc, childTarget]⟩
            · exact ⟨.vobj false [], by simp [hkc]⟩
          obtain ⟨w2, hw2⟩ := safeMergeLoop_node_spec fuel sprops2 (logVisit st k) w1
          obtain ⟨tps', h1, h2⟩ := ih rest
            ({ logVisit st k with
                visited := (logVisit st k).visited ++ ownKeyTrace fuel sprops2,
                warnings := (logVisit st k).warnings ++ warnTrace fuel sprops2 })
            hp (setOwn tps k w2)
          refine ⟨tps', ?_, ?_⟩
          · simp only [safeMergeLoop, hdf, if_false, Bool.false_eq_true, hw1,
              hw2, writeBackChild, writeTgt_vobj _ hp tps k w2 hk]
            exact h1
          · intro k' hm
            have hne : k' ≠ k := (not_mem_map_cons_head hm).1
            have hrest : k' ∉ rest.map Prod.fst := (not_mem_map_cons_head hm).2
            rw [h2 k' hrest, getOwn_setOwn_ne tps k k' w2 hne]
        | vnull =>
          obtain ⟨tps', h1, h2⟩ := ih rest (logVisit st k) hp (setOwn tps k .vnull)
          refine ⟨tps', ?_, ?_⟩
          · simp only [safeMergeLoop, hdf, if_false, Bool.false_eq_true,
              writeTgt_vobj _ hp tps k _ hk]
            exact h1
          · intro k' hm
            have hne : k' ≠ k := (not_mem_map_cons_head hm).1
            have hrest : k' ∉ rest.map Prod.fst := (not_mem_map_cons_head hm).2
            rw [h2 k' hrest, getOwn_setOwn_ne tps k k' _ hne]
        | vundefined =>
          obtain ⟨tps', h1, h2⟩ := ih rest (logVisit st k) hp (setOwn tps k .vundefined)
          refine ⟨tps', ?_, ?_⟩
          · simp only [safeMergeLoop, hdf, if_false, Bool.false_eq_true,
              writeTgt_vobj _ hp tps k _ hk]
            exact h1
          · intro k' hm
            have hne : k' ≠ k := (not_mem_map_cons_head hm).1
            have hrest : k' ∉ rest.map Prod.fst := (not_mem_map_cons_head hm).2
            rw [h2 k' hrest, getOwn_setOwn_ne tps k k' _ hne]
        | vbool b =>
          obtain ⟨tps', h1, h2⟩ := ih rest (logVisit st k) hp (setOwn tps k (.vbool b))
          refine ⟨tps', ?_, ?_⟩
          · simp only [safeMergeLoop, hdf, if_false, Bool.false_eq_true,
              writeTgt_vobj _ hp tps k _ hk]
            exact h1
          · intro k' hm
            have hne : k' ≠ k := (not_mem_map_cons_head hm).1
            have hrest : k' ∉ rest.map Prod.fst := (not_mem_map_cons_head hm).2
            rw [h2 k' hrest, getOwn_setOwn_ne tps k k' _ hne]
        | vnum n =>
          obtain ⟨tps', h1, h2⟩ := ih rest (logVisit st k) hp (setOwn tps k (.vnum n))
          refine ⟨tps', ?_, ?_⟩
          · simp only [safeMergeLoop, hdf, if_false, Bool.false_eq_true,
              writeTgt_vobj _ hp tps k _ hk]
            exact h1
          · intro k' hm
            have hne : k' ≠ k := (not_mem_map_cons_head hm).1
            have hrest : k' ∉ rest.map Prod.fst := (not_mem_map_cons_head hm).2
            rw [h2 k' hrest, getOwn_setOwn_ne tps k k' _ hne]
        | vstr s =>
          obtain ⟨tps', h1, h2⟩ := ih rest (logVisit st k) hp (setOwn tps k (.vstr s))
          refine ⟨tps', ?_, ?_⟩
          · simp only [safeMergeLoop, hdf, if_false, Bool.false_eq_true,
              writeTgt_vobj _ hp tps k _ hk]
            exact h1
          · intro k' hm
            have hne : k' ≠ k := (not_mem_map_cons_head hm).1
            have hrest : k' ∉ rest.map Prod.fst := (not_mem_map_cons_head hm).2
            rw [h2 k' hrest, getOwn_setOwn_ne tps k k' _ hne]
        | varr elems ps2 =>
          obtain ⟨tps', h1, h2⟩ := ih rest (logVisit st k) hp (setOwn tps k (.varr elems ps2))
          refine ⟨tps', ?_, ?_⟩
          · simp only [safeMergeLoop, hdf, if_false, Bool.false_eq_true,
              writeTgt_vobj _ hp tps k _ hk]
            exact h1
          · intro k' hm
            have hne : k' ≠ k := (not_mem_map_cons_head hm).1
            have hrest : k' ∉ rest.map Prod.fst := (not_mem_map_cons_head hm).2
            rw [h2 k' hrest, getOwn_setOwn_ne tps k k' _ hne]

/-! ### Claim theorems -/

/-- C1: for every target mapping and every source tree — including
sources holding `__proto__`, `constructor` and `prototype` at any depth
— running the fixed server's `safeMerge` leaves the shared ancestor
(`Object.prototype`) unchanged: starting from the fixed server's
startup state (frozen, clean), the ancestor's own properties after the
call are exactly the startup ones, so no canonical denied key resolves
to a non-default value and `verify_ambient_clean` returns `true`. -/
theorem safeMerge_no_ambient_leakage (fuel : Nat) (thp : Bool)
    (tprops : Props) (src : JVal) :
    (safeMerge fuel fixedStartState (.node (.vobj thp tprops)) src).1.proto
      = fixedStartState.proto ∧
    verifyAmbientClean DANGEROUS_KEYS
      (safeMerge fuel fixedStartState (.node (.vobj thp tprops)) src).1.proto
      = true := by
  obtain ⟨w', hw⟩ := safeMergeLoop_node_spec fuel (srcOwnEntries src)
    fixedStartState (.vobj thp tprops)
  rw [safeMerge, hw]
  exact ⟨rfl, rfl⟩

/-- C2: the fixed merge enumerates only the source's own directly-held
keys.  The log of iterated keys equals `ownKeyTrace`, a function of the
source's own entries alone (it never reads the state, so no key
reachable only through the shared ancestor is ever visited), and every
target property whose key is not an own key of the source is left
exactly as it was (inherited keys are never written into the target). -/
theorem safeMerge_enumerates_own_keys_only (fuel : Nat) (st : MState)
    (thp : Bool) (tprops sprops : Props) :
    (safeMergeLoop fuel st (.node (.vobj thp tprops)) sprops).1.visited
      = st.visited ++ ownKeyTrace fuel sprops ∧
    ∃ tps',
      (safeMergeLoop fuel st (.node (.vobj thp tprops)) sprops).2
        = .node (.vobj thp tps') ∧
      ∀ k, k ∉ sprops.map Prod.fst → getOwn tps' k = getOwn tprops k := by
  obtain ⟨w', hw⟩ := safeMergeLoop_node_spec fuel sprops st (.vobj thp tprops)
  obtain ⟨tps', h1, h2⟩ := safeMergeLoop_vobj_own fuel sprops st thp tprops
  exact ⟨by rw [hw], tps', h1, h2⟩

/-- Witness for C2 at a concrete input: merging `{"email": "x"}` into
`{"role": "user"}` visits exactly the own key `email` and leaves the
unrelated key `role` untouched. -/
theorem safeMerge_enumerates_own_keys_only_witness :
    (safeMergeLoop 2 fixedStartState
        (.node (.vobj true [("role", .vstr "user")]))
        [("email", .vstr "x")]).1.visited
      = fixedStartState.visited ++ ownKeyTrace 2 [("email", .vstr "x")] ∧
    ∃ tps',
      (safeMergeLoop 2 fixedStartState
          (.node (.vobj true [("role", .vstr "user")]))
          [("email", .vstr "x")]).2
        = .node (.vobj true tps') ∧
      getOwn tps' "role" = getOwn [("role", .vstr "user")] "role" := by
  obtain ⟨h1, tps', h2, h3⟩ := safeMerge_enumerates_own_keys_only 2
    fixedStartState true [("role", .vstr "user")] [("email", .vstr "x")]
  exact ⟨h1, tps', h2, h3 "role" (by decide)⟩

/-- C3: deny-list rejection is depth-invariant and non-descending.  A
denied key is handled by one uniform equation of the merge loop —
whatever the state, the target and hence the nesting depth at which the
loop runs: the warning is recorded, and the right-hand side does not
mention the key's value `v` at all, so the value is never written and
never descended into, even when it is a container; this is literally
the same treatment the key receives at depth 0. -/
theorem safeMerge_denied_key_skip (fuel : Nat) (st : MState)
    (tgt : TgtRef) (k : String) (v : JVal) (rest : Props)
    (h : dangerousKey k = true) :
    safeMergeLoop (fuel + 1) st tgt ((k, v) :: rest)
      = safeMergeLoop fuel (logWarn (logVisit st k) k) tgt rest := by
  simp [safeMergeLoop, h]

/-- Witness for C3: the concrete skip of `__proto__`. -/
theorem safeMerge_denied_key_skip_witness :
    dangerousKey "__proto__" = true ∧
    safeMergeLoop 1 fixedStartState (.node (.vobj true []))
        [("__proto__", .vobj true [("x", .vnum 1)])]
      = safeMergeLoop 0
          (logWarn (logVisit fixedStartState "__proto__") "__proto__")
          (.node (.vobj true [])) [] :=
  ⟨rfl, safeMerge_denied_key_skip 0 fixedStartState (.node (.vobj true []))
    "__proto__" (.vobj true [("x", .vnum 1)]) [] rfl⟩

/-- C5: the type guard of the patched settings route.  Merging the body
`{"timeout": "CORRUPTED"}` under the schema `timeout: Number` is
rejected with exactly the `TypeMismatch`-style error naming `timeout`
and the runtime type `string`; no string-to-number coercion happens,
and — because `validateSettings` runs before any defaults object is
built or merged — the returned state is the input state unchanged (its
empty iteration log shows no merge loop ever ran), so the prior numeric
`timeout` default is untouched. -/
theorem settings_type_guard_rejects_string_timeout :
    settingsRoute 5 fixedStartState
        (.vobj true [("timeout", .vstr "CORRUPTED")])
      = (fixedStartState,
         .badRequest ["\"timeout\" must be a number, got: string"]) ∧
    validateSettings fixedStartState
        (.vobj true [("timeout", .vstr "CORRUPTED")])
      = ["\"timeout\" must be a number, got: string"] ∧
    settingsRoute 5 fixedStartState (.vobj true [("timeout", .vnum 10)])
      = ({ fixedStartState with visited := ["timeout"] },
         .applied 10000) :=
  ⟨rfl, rfl, rfl⟩

/-- C7 (code bug): after the one-time `Object.freeze(Object.prototype)`
install, an attempt to set a field on the shared ancestor does NOT fail
loudly.  The repository's modules are non-strict, so the assignment
returns without raising (second component `false`) and silently has no
effect (the ancestor stays clean) — contradicting both the claim and
the fixed server's own comment that it "will throw TypeError", and
matching the demo's comment "will throw in strict mode, silently fail
otherwise". -/
theorem frozen_ambient_assignment_is_silent :
    protoAssign (installAmbientGuard vulnStartState) "isAdmin" (.vbool true)
      = (installAmbientGuard vulnStartState, false) ∧
    (protoAssign (installAmbientGuard vulnStartState) "isAdmin"
        (.vbool true)).1.proto = [] :=
  ⟨rfl, rfl⟩

/-- C4 counterexample: the patched profile route with an allowed
top-level key whose nested value holds `__proto__` next to an ordinary
sibling.  The offending key is skipped (a warning is recorded — a
violation happened), the sibling `note` is written, and the route still
answers with the success outcome: the merge DID return "Merged" while
having skipped an offending key and written its sibling, so the claim's
"never" is false on the code. -/
theorem updateProfile_partial_silent_application :
    updateProfileRoute 10 fixedStartState
        [("alice", .vobj false [("username", .vstr "alice"), ("role", .vstr "user")])]
        "alice"
        (.vobj true [("bio", .vobj true
          [("__proto__", .vobj true [("x", .vnum 1)]), ("note", .vstr "hi")])])
      = ({ frozen := true, proto := [],
           warnings := ["[SECURITY] Blocked dangerous key: \"__proto__\""],
           visited := ["bio", "__proto__", "note"] },
         [("alice", .vobj false
           [("username", .vstr "alice"), ("role", .vstr "user"),
            ("bio", .vobj false [("note", .vstr "hi")])])],
         .updated) := rfl

/-- C4 amended: violation aggregation happens only in the route's
pre-merge validation layer, not inside the recursive merge.  When the
top-level validation of an existing user's update payload records any
error, the route rejects wholesale with the complete error list and
applies nothing (state and user store returned unchanged — the empty
iteration delta shows no merge loop ran).  Offending keys nested below
an allowed top-level key are instead skipped silently by `safeMerge`
with their siblings applied (see the counterexample). -/
theorem updateProfile_prevalidation_rejects_wholesale
    (fuel : Nat) (st : MState) (users : Props) (username : String)
    (updates : JVal) (hu : username ≠ "")
    (hfound : ∃ u, getOwn users username = some u)
    (herr : validateProfileUpdates updates ≠ []) :
    updateProfileRoute fuel st users username updates
      = (st, users, .badRequest (validateProfileUpdates updates)) := by
  obtain ⟨u, hu2⟩ := hfound
  have hie : (validateProfileUpdates updates).isEmpty = false := by
    cases h : validateProfileUpdates updates with
    | nil => exact absurd h herr
    | cons a l => rfl
  simp [updateProfileRoute, hu, hu2, hie]

/-- Witness for C4's amended theorem: an unknown top-level key is
rejected with the full error list and nothing is applied. -/
theorem updateProfile_prevalidation_rejects_wholesale_witness :
    updateProfileRoute 5 fixedStartState
        [("alice", .vobj false [("username", .vstr "alice")])]
        "alice" (.vobj true [("isAdmin", .vbool true)])
      = (fixedStartState,
         [("alice", .vobj false [("username", .vstr "alice")])],
         .badRequest (validateProfileUpdates
           (.vobj true [("isAdmin", .vbool true)]))) :=
  updateProfile_prevalidation_rejects_wholesale 5 fixedStartState
    [("alice", .vobj false [("username", .vstr "alice")])]
    "alice" (.vobj true [("isAdmin", .vbool true)])
    (by decide) ⟨.vobj false [("username", .vstr "alice")], rfl⟩ (by decide)

/-- C6 counterexample: Scenario C of the spec — target `{}`, source
`{"a":{"b":{"c":1}}}` — run through the code's merge.  There is no
depth parameter at all: the merge recurses to depth 3, writes `c`, and
records no violation of any kind (empty warning log), returning the
fully merged target instead of the claimed
`Rejected([DepthExceeded at "a.b"])`. -/
theorem safeMerge_scenarioC_fully_merged :
    safeMerge 9 fixedStartState (.node (.vobj true []))
        (.vobj true [("a", .vobj true [("b", .vobj true [("c", .vnum 1)])])])
      = ({ frozen := true, proto := [], warnings := [],
           visited := ["a", "b", "c"] },
         .node (.vobj true
           [("a", .vobj false [("b", .vobj false [("c", .vnum 1)])])])) := rfl

/-- Helper for C6's amended theorem: merging an `"a"`-chain of any
depth into a fresh null-prototype container materializes the whole
chain, each level as a new null-prototype container, with no warning. -/
theorem safeMergeLoop_chain (n : Nat) : ∀ st : MState,
    safeMergeLoop (n + 1) st (.node (.vobj false [])) [("a", chainSrc n)]
      = ({ st with visited := st.visited ++ List.replicate (n + 1) "a" },
         .node (.vobj false [("a", mergedChain n)])) := by
  induction n with
  | zero => intro st; rfl
  | succ m ih =>
    intro st
    have h := ih (logVisit st "a")
    have step : safeMergeLoop (m + 1 + 1) st (.node (.vobj false []))
          [("a", chainSrc (m + 1))]
        = writeBackChild
            (safeMergeLoop (m + 1) (logVisit st "a")
              (.node (.vobj false [])) [("a", chainSrc m)]).1
            (.node (.vobj false [])) "a"
            (safeMergeLoop (m + 1) (logVisit st "a")
              (.node (.vobj false [])) [("a", chainSrc m)]).2 := rfl
    rw [step, h]
    simp [writeBackChild, writeTgt, setOwn, logVisit, mergedChain,
      List.replicate_succ, List.append_assoc]

/-- C6 amended: the code's merge has no depth bound.  For every nesting
depth `n + 1`, merging the chained source `{"a": {"a": ... 1}}` into an
empty ordinary target succeeds in full: every level is descended into
and materialized as a fresh null-prototype container, the innermost
scalar is written, and no violation is recorded. -/
theorem safeMerge_unbounded_depth (n : Nat) :
    safeMerge (n + 1) fixedStartState (.node (.vobj true []))
        (chainSrc (n + 1))
      = ({ fixedStartState with visited := List.replicate (n + 1) "a" },
         .node (.vobj true [("a", mergedChain n)])) := by
  cases n with
  | zero => rfl
  | succ m =>
    have h := safeMergeLoop_chain m (logVisit fixedStartState "a")
    have step : safeMerge (m + 1 + 1) fixedStartState
          (.node (.vobj true [])) (chainSrc (m + 1 + 1))
        = writeBackChild
            (safeMergeLoop (m + 1) (logVisit fixedStartState "a")
              (.node (.vobj false [])) [("a", chainSrc m)]).1
            (.node (.vobj true [])) "a"
            (safeMergeLoop (m + 1) (logVisit fixedStartState "a")
              (.node (.vobj false [])) [("a", chainSrc m)]).2 := rfl
    rw [step, h]
    simp [writeBackChild, writeTgt, setOwn, logVisit, mergedChain,
      fixedStartState, installAmbientGuard, vulnStartState,
      List.replicate_succ]

/-- C8 counterexample: the claim's "not already a container of the same
shape" condition is not what the code tests.  With an existing sequence
`[9]` at `k` and a mapping source value `{"a": 2}` — containers of
different shapes — the claim requires a fresh ancestor-free mapping at
`target[k]`; the code keeps the array (it is truthy and of `object`
runtime type) and merges into it, so `target[k]` is still a sequence
(with the named property `a` set on it), not a mapping. -/
theorem safeMerge_shape_mismatch_keeps_existing_array :
    (safeMerge 3 fixedStartState
        (.node (.vobj true [("k", .varr [.vnum 9] [])]))
        (.vobj true [("k", .vobj true [("a", .vnum 2)])])).2
      = .node (.vobj true [("k", .varr [.vnum 9] [("a", .vnum 2)])]) ∧
    isMapping (.varr [.vnum 9] [("a", .vnum 2)]) = false :=
  ⟨rfl, rfl⟩

/-- C8 amended: for a non-denied key `k` whose source value is a
mapping, when the existing `target[k]` fails the code's keep-test
(falsy, or not of `object` runtime type — e.g. absent), the merge
materializes a fresh null-prototype container (`Object.create(null)`,
here `vobj false []`: no link to the shared ancestor), recurses the
source value's own entries into it, and stores the result — which is
still ancestor-free — at `k`; an existing value of `object` runtime
type (even a sequence) is instead kept and merged into, and
sequence-valued source entries are assigned wholesale without
recursion. -/
theorem safeMerge_materializes_ancestor_free_child
    (fuel : Nat) (st : MState) (thp shp : Bool) (tps sprops : Props)
    (k : String) (hd : dangerousKey k = false)
    (hkeep : keepChild (readTgt (logVisit st k) (.node (.vobj thp tps)) k)
      = false) :
    ∃ ips,
      (safeMergeLoop fuel (logVisit st k) (.node (.vobj false [])) sprops).2
        = .node (.vobj false ips) ∧
      safeMergeLoop (fuel + 1) st (.node (.vobj thp tps))
          [(k, .vobj shp sprops)]
        = ((safeMergeLoop fuel (logVisit st k)
              (.node (.vobj false [])) sprops).1,
           .node (.vobj thp (setOwn tps k (.vobj false ips)))) := by
  obtain ⟨ips, h1, _⟩ := safeMergeLoop_vobj_own fuel sprops (logVisit st k)
    false []
  refine ⟨ips, h1, ?_⟩
  have hk := dangerousKey_ne_proto hd
  simp only [safeMergeLoop, hd, if_false, Bool.false_eq_true, hkeep, h1,
    writeBackChild, writeTgt_vobj _ thp tps k _ hk]

/-- Witness for C8's amended theorem: merging `{"a": {"x": 1}}` into an
empty ordinary mapping creates the child as a fresh null-prototype
container. -/
theorem safeMerge_materializes_ancestor_free_child_witness :
    dangerousKey "a" = false ∧
    keepChild (readTgt (logVisit fixedStartState "a")
        (.node (.vobj true [])) "a") = false ∧
    ∃ ips,
      (safeMergeLoop 3 (logVisit fixedStartState "a")
          (.node (.vobj false [])) [("x", .vnum 1)]).2
        = .node (.vobj false ips) ∧
      safeMergeLoop 4 fixedStartState (.node (.vobj true []))
          [("a", .vobj true [("x", .vnum 1)])]
        = ((safeMergeLoop 3 (logVisit fixedStartState "a")
              (.node (.vobj false [])) [("x", .vnum 1)]).1,
           .node (.vobj true (setOwn [] "a" (.vobj false ips)))) :=
  ⟨rfl, rfl, safeMerge_materializes_ancestor_free_child 3 fixedStartState
    true true [] [("x", .vnum 1)] "a" rfl rfl⟩

/-- C9 counterexample: the deny-list check is exact, not
casing-insensitive.  `__PROTO__` is classified as harmless
(`dangerousKey` is `false`), and the merge does not reject it: the run
writes the key into the target (as a fresh merged child) and records no
warning, contradicting the claim that any casing of a denied name is
rejected. -/
theorem safeMerge_cased_variant_not_blocked :
    dangerousKey "__PROTO__" = false ∧
    safeMerge 3 fixedStartState (.node (.vobj true []))
        (.vobj true [("__PROTO__", .vobj true [("x", .vnum 1)])])
      = ({ frozen := true, proto := [], warnings := [],
           visited := ["__PROTO__", "x"] },
         .node (.vobj true
           [("__PROTO__", .vobj false [("x", .vnum 1)])])) :=
  ⟨rfl, rfl⟩

/-- C9 amended: key classification is case-sensitive — a key is denied
exactly when it is one of the three canonical names in their exact
casing, at every depth (the same classifier runs at every level of the
merge); any other casing is an ordinary key.  (In the host runtime only
the exact spellings alias the ancestor, so the exact check loses no
protection.) -/
theorem dangerousKey_exact_casing (k : String) :
    dangerousKey k = true ↔
      (k = "__proto__" ∨ k = "constructor" ∨ k = "prototype") := by
  simp [dangerousKey, DANGEROUS_KEYS, List.contains, List.elem_iff]

/-- C10: for any ordinary target mapping (prototype-linked, no own
`"__proto__"` property), running the vulnerable server's `unsafeMerge`
with source `{"__proto__": {"isAdmin": true}}` pollutes the shared
ancestor: afterwards the ancestor carries `isAdmin = true`, a freshly
created empty mapping reads `isAdmin` as `true` through inherited
lookup, and the admin check of `GET /api/admin` grants access — while
`safeMerge` on the same input leaves the ancestor clean. -/
theorem unsafeMerge_pollutes_ambient (tprops : Props)
    (h : getOwn tprops "__proto__" = none) :
    (unsafeMerge 4 vulnStartState (.node (.vobj true tprops))
        (.vobj true [("__proto__", .vobj true [("isAdmin", .vbool true)])])).1
      = { frozen := false, proto := [("isAdmin", .vbool true)],
          warnings := [], visited := ["__proto__", "isAdmin"] } ∧
    getField (unsafeMerge 4 vulnStartState (.node (.vobj true tprops))
        (.vobj true [("__proto__", .vobj true [("isAdmin", .vbool true)])])).1
        (.vobj true []) "isAdmin" = .vbool true ∧
    adminCheckGranted (unsafeMerge 4 vulnStartState (.node (.vobj true tprops))
        (.vobj true [("__proto__", .vobj true [("isAdmin", .vbool true)])])).1
      = true ∧
    (safeMerge 4 vulnStartState (.node (.vobj true tprops))
        (.vobj true [("__proto__", .vobj true [("isAdmin", .vbool true)])])).1.proto
      = [] := by
  have key : (unsafeMerge 4 vulnStartState (.node (.vobj true tprops))
      (.vobj true [("__proto__", .vobj true [("isAdmin", .vbool true)])])).1
      = { frozen := false, proto := [("isAdmin", .vbool true)],
          warnings := [], visited := ["__proto__", "isAdmin"] } := by
    simp [unsafeMerge, unsafeMergeLoop, forInEntries, forInKeys,
      srcOwnEntries, readTgt, readOwnJVal, h, asSrcVal, isObjNonNullR,
      truthyR, truthy, childTarget, writeBackChild, writeTgt, ambientSet,
      logVisit, vulnStartState, getOwn, inheritedData, setOwn]
  refine ⟨key, ?_, ?_, rfl⟩
  · rw [key]; rfl
  · rw [key]; rfl

/-- Witness for C10 at the concrete profile target of the demo. -/
theorem unsafeMerge_pollutes_ambient_witness :
    getOwn [("username", JVal.vstr "alice")] "__proto__" = none ∧
    ((unsafeMerge 4 vulnStartState
        (.node (.vobj true [("username", JVal.vstr "alice")]))
        (.vobj true [("__proto__", .vobj true [("isAdmin", .vbool true)])])).1
      = { frozen := false, proto := [("isAdmin", .vbool true)],
          warnings := [], visited := ["__proto__", "isAdmin"] } ∧
    getField (unsafeMerge 4 vulnStartState
        (.node (.vobj true [("username", JVal.vstr "alice")]))
        (.vobj true [("__proto__", .vobj true [("isAdmin", .vbool true)])])).1
        (.vobj true []) "isAdmin" = .vbool true ∧
    adminCheckGranted (unsafeMerge 4 vulnStartState
        (.node (.vobj true [("username", JVal.vstr "alice")]))
        (.vobj true [("__proto__", .vobj true [("isAdmin", .vbool true)])])).1
      = true ∧
    (safeMerge 4 vulnStartState
        (.node (.vobj true [("username", JVal.vstr "alice")]))
        (.vobj true [("__proto__", .vobj true [("isAdmin", .vbool true)])])).1.proto
      = []) :=
  ⟨rfl, unsafeMerge_pollutes_ambient [("username", JVal.vstr "alice")] rfl⟩
